import Mathlib

/-!
Verification development for the Multi-Disease-Detection Flask application.

The Lean definitions below shallowly embed the Python source under `app/`:

* `app/services/prediction/prediction_service.py` — form-field parsing
  (`_parse_float`, the inner `_parse_binary`), the heart-disease and
  brain-tumor prediction pipelines, and the canned suggestion texts.
* `app/services/report/report_service.py` — the ownership-scoped
  prediction-log lookup (`get_prediction_for_user`) and the brain-class
  explanation table (`_brain_class_explanation`).
* `app/services/chatbot/chatbot_service.py` — the latest-prediction query
  (`_fetch_latest_prediction`).
* `app/services/user_settings/user_settings_service.py` — `delete_account`.

Machine floats are idealised as rationals (`ℚ`); Python strings are Lean
`String`s (ASCII-level model of `str.strip` / `str.lower`).  The database
manager (`app/core/managers/database_manager.py`) is not part of the source
tree; the row store and its three operations used by the services are
modelled from the specification (each such definition is marked
`Modelled from the spec:`), while every SQL statement the services issue is
embedded from the literal query text in the service files.
-/

-- ## Python string primitives

/-- Whitespace as recognised by Python `str.strip()` (ASCII subset). -/
def pyIsSpace (c : Char) : Bool :=
  c = ' ' || c = '\t' || c = '\n' || c = '\r' || c = '\x0b' || c = '\x0c'

/-- Leading and trailing whitespace removed, on character lists. -/
def pyStripChars (l : List Char) : List Char :=
  ((l.dropWhile pyIsSpace).reverse.dropWhile pyIsSpace).reverse

/-- Model of Python `str.strip()`. -/
def pyStrip (s : String) : String :=
  ⟨pyStripChars s.data⟩

/-- Model of Python `str.lower()` on one character (ASCII range). -/
def pyLowerChar (c : Char) : Char :=
  if 'A' ≤ c && c ≤ 'Z' then Char.ofNat (c.toNat + 32) else c

/-- Model of Python `str.lower()` (ASCII model; the form values the app
compares against are ASCII). -/
def pyLower (s : String) : String :=
  ⟨s.data.map pyLowerChar⟩

-- ## Decimal digits

/-- The decimal digit character for `d < 10` (clamped to `'9'` above). -/
def digitToChar (d : ℕ) : Char :=
  match d with
  | 0 => '0'
  | 1 => '1'
  | 2 => '2'
  | 3 => '3'
  | 4 => '4'
  | 5 => '5'
  | 6 => '6'
  | 7 => '7'
  | 8 => '8'
  | _ => '9'

/-- Numeric value of a decimal digit character. -/
def digVal (c : Char) : ℕ :=
  c.toNat - 48

/-- The number denoted by a most-significant-first digit string. -/
def natOfChars (l : List Char) : ℕ :=
  l.foldl (fun a c => 10 * a + digVal c) 0

/-- Decimal digits of `n`, most significant first, with explicit fuel so that
the definition is structural and kernel-reducible. -/
def natCharsAux : ℕ → ℕ → List Char
  | 0, _ => []
  | fuel + 1, n => if n = 0 then [] else natCharsAux fuel (n / 10) ++ [digitToChar (n % 10)]

/-- Decimal rendering of a natural number (`"0"` for zero). -/
def natChars (n : ℕ) : List Char :=
  if n = 0 then ['0'] else natCharsAux n n

-- ## Model of the Python builtin float(str)

/-- Mantissa of a float literal: leading digits, an optional `'.'` with
further digits.  Returns the combined digit value, the number of fractional
digits, and the unconsumed remainder.  (Underscored literals, `inf` and
`nan` are outside this model.) -/
def pyFloatMantissa (l : List Char) : Option (ℕ × ℕ × List Char) :=
  let ds := l.takeWhile Char.isDigit
  let r1 := l.dropWhile Char.isDigit
  match r1 with
  | '.' :: r2 =>
      let fs := r2.takeWhile Char.isDigit
      let r3 := r2.dropWhile Char.isDigit
      if ds.isEmpty && fs.isEmpty then none
      else some (natOfChars (ds ++ fs), fs.length, r3)
  | _ => if ds.isEmpty then none else some (natOfChars ds, 0, r1)

/-- Exponent of a float literal (after `e`/`E`): optional sign, digits,
nothing else. -/
def pyFloatExp (l : List Char) : Option ℤ :=
  match l with
  | '+' :: r => if r.isEmpty || !r.all Char.isDigit then none else some ((natOfChars r : ℤ))
  | '-' :: r => if r.isEmpty || !r.all Char.isDigit then none else some (-(natOfChars r : ℤ))
  | r => if r.isEmpty || !r.all Char.isDigit then none else some ((natOfChars r : ℤ))

/-- Unsigned float literal: mantissa and optional exponent, the whole input
consumed.  The value is returned as a pair `(m, k)` denoting `m / 10 ^ k`. -/
def pyFloatBody (l : List Char) : Option (ℤ × ℕ) :=
  match pyFloatMantissa l with
  | none => none
  | some (m, k, rest) =>
      match rest with
      | [] => some ((m : ℤ), k)
      | c :: r =>
          if c = 'e' || c = 'E' then
            match pyFloatExp r with
            | none => none
            | some e =>
                if 0 ≤ e then some ((m : ℤ) * (10 : ℤ) ^ e.toNat, k)
                else some ((m : ℤ), k + e.natAbs)
          else none

/-- Signed float literal after Python's whitespace strip, as `(m, k)` with
value `m / 10 ^ k`. -/
def pyFloatRaw (s : String) : Option (ℤ × ℕ) :=
  match pyStripChars s.data with
  | '+' :: r => pyFloatBody r
  | '-' :: r => (pyFloatBody r).map (fun p => (-p.1, p.2))
  | r => pyFloatBody r

/-- Model of Python `float(s)`: `none` exactly where the builtin raises
`ValueError` in this model. -/
def pyFloatValue (s : String) : Option ℚ :=
  (pyFloatRaw s).map (fun p => (p.1 : ℚ) / (10 : ℚ) ^ p.2)

-- ## PredictionService._parse_float and the inner _parse_binary

/-- Embedding of `PredictionService._parse_float`: `float(value)` guarded by
`try/except (TypeError, ValueError)`.  A missing value (`None`, raising
`TypeError`) and an unparsable string (raising `ValueError`) both return
`default`; the function is total. -/
def parseFloat (value : Option String) (default : ℚ) : ℚ :=
  match value with
  | none => default
  | some s =>
      match pyFloatValue s with
      | some q => q
      | none => default

/-- Embedding of the inner `_parse_binary` of `predict_heart_disease`:
`None` maps to 0.0; otherwise the stripped, lowercased string is looked up
in two small spelling tables, and every unrecognised spelling maps to 0.0. -/
def parseBinary (val : Option String) : ℚ :=
  match val with
  | none => 0
  | some v =>
      let t := pyLower (pyStrip v)
      if t = "1" ∨ t = "yes" ∨ t = "y" ∨ t = "true" then 1
      else if t = "0" ∨ t = "no" ∨ t = "n" ∨ t = "false" then 0
      else 0

-- ## Decimal rendering of normalised values

/-- A rational is decimal-representable when its reduced denominator divides
a power of ten; `10 ^ q.den` is always such a power when one exists at all.
Every value produced by the form normaliser satisfies this. -/
def Reprable (q : ℚ) : Prop :=
  q.den ∣ 10 ^ q.den

/-- Fractional digit block: the digits of `f` left-padded with zeros to
width `e`. -/
def padChars (e f : ℕ) : List Char :=
  List.replicate (e - (natChars f).length) '0' ++ natChars f

/-- Decimal rendering of a rational, modelling how Python's f-string prints
the (float-valued) feature fields: optional minus sign, integer digits, a
dot, at least one fractional digit.  The model always prints
`q.den` fractional digits (for a `Reprable` value that many digits are
exact), an injective idealisation of CPython's shortest-round-trip repr,
which is likewise injective on float values. -/
def fmtQ (q : ℚ) : List Char :=
  let e := q.den
  let scale := 10 ^ e / q.den
  let m := q.num.natAbs * scale
  (if q.num < 0 then ['-'] else []) ++ natChars (m / 10 ^ e) ++ '.' :: padChars e (m % 10 ^ e)

/-- Fixed-point parse of an unsigned decimal `digits.digits`, returning the
value and the unconsumed remainder. -/
def parseUnsigned (l : List Char) : Option (ℚ × List Char) :=
  let ds := l.takeWhile Char.isDigit
  let r1 := l.dropWhile Char.isDigit
  if ds.isEmpty then none
  else
    match r1 with
    | '.' :: r2 =>
        let fs := r2.takeWhile Char.isDigit
        let r3 := r2.dropWhile Char.isDigit
        if fs.isEmpty then none
        else some (((natOfChars ds * 10 ^ fs.length + natOfChars fs : ℕ) : ℚ) / (10 : ℚ) ^ fs.length, r3)
    | _ => none

/-- Fixed-point parse of a possibly negated decimal. -/
def parseSigned (l : List Char) : Option (ℚ × List Char) :=
  match l with
  | '-' :: r => (parseUnsigned r).map (fun p => (-p.1, p.2))
  | _ => parseUnsigned l

/-- Consume an expected literal from the front of the input. -/
def expectLit : List Char → List Char → Option (List Char)
  | [], l => some l
  | _ :: _, [] => none
  | c :: p, d :: l => if c = d then expectLit p l else none

-- ## The heart-disease feature vector (prediction_service lines 42-76)

/-- The fixed-order feature dict built by `predict_heart_disease`; keys as in
the training script. -/
structure HeartFeatures where
  age : ℚ
  sex : ℚ
  cp : ℚ
  trestbps : ℚ
  chol : ℚ
  fbs : ℚ
  restecg : ℚ
  thalach : ℚ
  exang : ℚ
  oldpeak : ℚ
  slope : ℚ
  ca : ℚ
  thal : ℚ
deriving DecidableEq

/-- Embedding of the input-parsing block of `predict_heart_disease`: each
form field is fetched from the (dict-modelled) form data and normalised with
`_parse_float` or `_parse_binary`. -/
def normalizeHeartFeatures (g : String → Option String) : HeartFeatures :=
  { age := parseFloat (g "age") 0
    sex := parseBinary (g "sex")
    cp := parseFloat (g "cp") 0
    trestbps := parseFloat (g "trestbps") 0
    chol := parseFloat (g "chol") 0
    fbs := parseBinary (g "fbs")
    restecg := parseFloat (g "restecg") 0
    thalach := parseFloat (g "thalach") 0
    exang := parseBinary (g "exang")
    oldpeak := parseFloat (g "oldpeak") 0
    slope := parseFloat (g "slope") 0
    ca := parseFloat (g "ca") 0
    thal := parseFloat (g "thal") 0 }

/-- Embedding of the `input_summary` f-string of `predict_heart_disease`
(lines 85-89), at the character-list level. -/
def heartInputSummaryChars (f : HeartFeatures) : List Char :=
  "age=".data ++ fmtQ f.age ++ ", sex=".data ++ fmtQ f.sex ++
  ", cp=".data ++ fmtQ f.cp ++ ", trestbps=".data ++ fmtQ f.trestbps ++
  ", chol=".data ++ fmtQ f.chol ++ ", fbs=".data ++ fmtQ f.fbs ++
  ", restecg=".data ++ fmtQ f.restecg ++ ", thalach=".data ++ fmtQ f.thalach ++
  ", exang=".data ++ fmtQ f.exang ++ ", oldpeak=".data ++ fmtQ f.oldpeak ++
  ", slope=".data ++ fmtQ f.slope ++ ", ca=".data ++ fmtQ f.ca ++
  ", thal=".data ++ fmtQ f.thal

/-- The stored `input_summary` for the tabular path, as a string. -/
def heartInputSummary (f : HeartFeatures) : String :=
  ⟨heartInputSummaryChars f⟩

/-- Concatenation of labelled rendered fields; `heartInputSummaryChars` is
`summaryOfPairs` of the thirteen label/value pairs. -/
def summaryOfPairs : List (List Char × ℚ) → List Char
  | [] => []
  | pr :: rest => pr.1 ++ fmtQ pr.2 ++ summaryOfPairs rest

/-- The thirteen label/value pairs of a heart feature vector's summary. -/
def heartFieldPairs (f : HeartFeatures) : List (List Char × ℚ) :=
  [("age=".data, f.age), (", sex=".data, f.sex), (", cp=".data, f.cp),
   (", trestbps=".data, f.trestbps), (", chol=".data, f.chol),
   (", fbs=".data, f.fbs), (", restecg=".data, f.restecg),
   (", thalach=".data, f.thalach), (", exang=".data, f.exang),
   (", oldpeak=".data, f.oldpeak), (", slope=".data, f.slope),
   (", ca=".data, f.ca), (", thal=".data, f.thal)]

/-- One `label=value` field of the summary: the expected label literal
followed by a signed fixed-point decimal. -/
def parseField (pre l : List Char) : Option (ℚ × List Char) :=
  match expectLit pre l with
  | none => none
  | some l1 => parseSigned l1

/-- The thirteen field labels of the tabular input summary, in order. -/
def heartFieldLabels : List (List Char) :=
  ["age=".data, ", sex=".data, ", cp=".data, ", trestbps=".data, ", chol=".data,
   ", fbs=".data, ", restecg=".data, ", thalach=".data, ", exang=".data,
   ", oldpeak=".data, ", slope=".data, ", ca=".data, ", thal=".data]

/-- Parse a sequence of labelled fields, returning their values in order. -/
def parseFields : List (List Char) → List Char → Option (List ℚ)
  | [], _ => some []
  | p :: ps, l =>
      match parseField p l with
      | none => none
      | some (q, l1) =>
          match parseFields ps l1 with
          | none => none
          | some qs => some (q :: qs)

/-- Recovery function for the tabular input summary: parses the thirteen
`name=value` fields back out of the stored digest. -/
def recoverHeartFeatures (l : List Char) : Option HeartFeatures :=
  match parseFields heartFieldLabels l with
  | some [age, sex, cp, trestbps, chol, fbs, restecg, thalach, exang, oldpeak, slope, ca, thal] =>
      some ⟨age, sex, cp, trestbps, chol, fbs, restecg, thalach, exang, oldpeak, slope, ca, thal⟩
  | _ => none

-- ## Result Interpreter: canned suggestion / explanation texts

/-- Heart suggestion for the High branch (prediction_service lines 129-134). -/
def heartHighMsg : String :=
  "Your risk is estimated as HIGH. This is not a diagnosis, but you should strongly consider speaking with a cardiologist and getting full medical tests."

/-- Heart suggestion for the Medium branch (lines 135-140). -/
def heartMediumMsg : String :=
  "Your risk is estimated as MEDIUM. Consider regular check-ups, monitoring blood pressure and cholesterol, and discussing lifestyle changes with a healthcare professional."

/-- Heart suggestion for the fall-through Low branch (lines 141-145). -/
def heartLowMsg : String :=
  "Your risk is estimated as LOW. Maintain a healthy lifestyle, exercise regularly, and keep up with periodic check-ups."

/-- Embedding of `PredictionService._generate_heart_suggestion`: a fixed
three-branch table keyed on the risk label. -/
def generateHeartSuggestion (riskLabel : String) : String :=
  if riskLabel = "High" then heartHighMsg
  else if riskLabel = "Medium" then heartMediumMsg
  else heartLowMsg

/-- Model of Python `round()` on a rational: round-half-to-even. -/
def pyRound (q : ℚ) : ℤ :=
  let f := ⌊q⌋
  let r := q - f
  if r < 1 / 2 then f
  else if 1 / 2 < r then f + 1
  else if f % 2 = 0 then f else f + 1

/-- Embedding of `PredictionService._generate_brain_suggestion`: the
`no_tumor` branch and the common tumor-class branch, each interpolating the
class name and the rounded percentage.  The `is_tumor` argument is accepted
and unused, exactly as in the source. -/
def generateBrainSuggestion (predictedClass : String) (isTumor : Bool) (probability : ℚ) : String :=
  let probPct := pyRound (probability * 100)
  if predictedClass = "no_tumor" then
    "The model's highest confidence class is 'no_tumor' with an estimated probability of about "
      ++ toString probPct ++
      "%. This does not guarantee that no abnormality exists. If you have any symptoms or concerns, please consult a neurologist or radiologist."
  else
    ("The model suggests the MRI is most consistent with '" ++ predictedClass ++
      "' with an estimated probability of about " ++ toString probPct ++
      "%. This is NOT a clinical diagnosis.")
      ++ " " ++
      "You should promptly consult a qualified neurologist or neurosurgeon, and have this MRI evaluated by a radiologist for a professional interpretation."

/-- Brain explanation, `no_tumor` branch (report_service lines 127-132). -/
def brainNoTumorMsg : String :=
  "The model did not detect a brain tumor pattern in the MRI image. However, this is only an AI model output and cannot replace a radiologist's professional interpretation."

/-- Brain explanation, `glioma` branch (lines 133-139). -/
def brainGliomaMsg : String :=
  "The model pattern is most consistent with a glioma-type tumor. This does NOT confirm a diagnosis. A radiologist and neurospecialist must review the MRI and perform full clinical evaluation."

/-- Brain explanation, `meningioma` branch (lines 140-145). -/
def brainMeningiomaMsg : String :=
  "The model pattern is most consistent with a meningioma-type tumor. This is only an AI pattern suggestion and not a diagnosis. A specialist must confirm any findings."

/-- Brain explanation, `pituitary` branch (lines 146-151). -/
def brainPituitaryMsg : String :=
  "The model pattern is most consistent with a pituitary-region tumor. This is not a confirmed diagnosis. A radiologist and doctor must interpret the MRI and clinical picture."

/-- Brain explanation, fall-through branch for an unknown class (lines 152-157). -/
def brainUnknownMsg : String :=
  "The model could not clearly map the MRI to one of the expected classes, or the class name is unknown. Only a qualified doctor and radiologist can interpret the scan reliably."

/-- Embedding of `ReportService._brain_class_explanation`: the class name is
lowercased and stripped (`(predicted_class or \x22\x22).lower().strip()`),
then looked up in a fixed five-branch table, the fifth branch covering
`no finding` of every unrecognised class. -/
def brainClassExplanation (predictedClass : String) : String :=
  let cls := pyStrip (pyLower predictedClass)
  if cls = "no_tumor" then brainNoTumorMsg
  else if cls = "glioma" then brainGliomaMsg
  else if cls = "meningioma" then brainMeningiomaMsg
  else if cls = "pituitary" then brainPituitaryMsg
  else brainUnknownMsg

-- ## The row store

/-- One row of the `prediction_logs` table (schema as selected in
report_service lines 53-58). -/
structure PredictionLogRow where
  id : ℕ
  user_id : ℕ
  model_type : String
  input_summary : String
  prediction_result : String
  probability : ℚ
  created_at : String
deriving DecidableEq

/-- One row of the `users` table (schema as selected in
user_settings_service lines 10-18). -/
structure UserRow where
  id : ℕ
  username : String
  email : String
  password_hash : String
  created_at : String
  updated_at : String
  is_active : Bool
deriving DecidableEq

/-- Modelled from the spec: the single-file relational store behind the
missing `app/core/managers/database_manager.py` — the two tables the
services touch, plus the next generated rowid for `prediction_logs`. -/
structure DB where
  users : List UserRow
  prediction_logs : List PredictionLogRow
  next_log_id : ℕ
deriving DecidableEq

/-- Modelled from the spec: `db_manager.execute_and_get_id` applied to the
INSERT statement of the prediction services — a single-row insert that
returns the generated identifier, the insert and the identifier retrieval
one atomic operation (one call, one transaction).  `storageOk` selects the
storage-write-failure branch, which the wrapper surfaces as a raised error. -/
def insertPredictionLog (db : DB) (userId : ℕ)
    (modelType inputSummary predictionResult : String) (probability : ℚ)
    (createdAt : String) (storageOk : Bool) : Except String (DB × ℕ) :=
  if storageOk then
    Except.ok
      ({ db with
          prediction_logs := db.prediction_logs ++
            [⟨db.next_log_id, userId, modelType, inputSummary, predictionResult,
              probability, createdAt⟩],
          next_log_id := db.next_log_id + 1 },
        db.next_log_id)
  else Except.error "storage write failure"

/-- Embedding of `ReportService.get_prediction_for_user` (lines 42-68): the
query `WHERE id = ? AND user_id = ?`, with `AND model_type = ?` appended
only when `model_type` is truthy (neither `None` nor the empty string);
`fetch_one` is modelled from the spec as the first matching row. -/
def fetchPredictionForUser (db : DB) (logId userId : ℕ)
    (modelType : Option String) : Option PredictionLogRow :=
  db.prediction_logs.find? (fun r =>
    r.id == logId && r.user_id == userId &&
      (match modelType with
       | none => true
       | some mt => if mt = "" then true else r.model_type == mt))

/-- The rows of `prediction_logs` matching `WHERE user_id = ? AND
model_type = ?` in the latest-prediction query (chatbot_service lines
71-81). -/
def latestCandidates (db : DB) (userId : ℕ) (modelType : String) : List PredictionLogRow :=
  db.prediction_logs.filter (fun r => r.user_id == userId && r.model_type == modelType)

/-- One step of selecting the row with the greatest `created_at`. -/
def latestStep (acc : Option PredictionLogRow) (r : PredictionLogRow) :
    Option PredictionLogRow :=
  match acc with
  | none => some r
  | some b => if b.created_at < r.created_at then some r else some b

/-- Embedding of `ChatbotService._fetch_latest_prediction`: of the rows for
this user and model type, one with the greatest `created_at` (the SQL
`ORDER BY created_at DESC LIMIT 1` over the TEXT column, i.e. ordered by
the lexicographic string order); `none` when no such row exists. -/
def fetchLatestPrediction (db : DB) (userId : ℕ) (modelType : String) : Option PredictionLogRow :=
  (latestCandidates db userId modelType).foldl latestStep none

/-- Embedding of `UserSettingsService.delete_account` (lines 80-85): the
single statement `DELETE FROM users WHERE id = ?`; `db_manager.execute` is
modelled from the spec as executing exactly that statement.  Nothing touches
`prediction_logs`. -/
def deleteAccount (db : DB) (userId : ℕ) : DB :=
  { db with users := db.users.filter (fun u => u.id != userId) }

-- ## Prediction pipelines

/-- The ids of `prediction_logs` rows are all below the next generated id
and pairwise distinct — what holds of a rowid table and is preserved by
`insertPredictionLog`. -/
def dbWellFormed (db : DB) : Prop :=
  (∀ r ∈ db.prediction_logs, r.id < db.next_log_id) ∧
    db.prediction_logs.Pairwise (fun a b => a.id ≠ b.id)

/-- Result dict of `predict_heart_disease` (lines 119-126). -/
structure HeartPredictionResult where
  risk_label : String
  probability : ℚ
  features : HeartFeatures
  input_summary : String
  suggestion : String
  log_id : Option ℕ
deriving DecidableEq

/-- Embedding of `PredictionService.predict_heart_disease`: normalise the
form data, run the (externally supplied) model, build the input summary,
insert a log row when a user id is present — a raised storage error
propagates — and return the result dict.  `now` stands for `_now_iso()`. -/
def predictHeartDisease (model : HeartFeatures → String × ℚ)
    (g : String → Option String) (userId : Option ℕ) (storageOk : Bool)
    (now : String) (db : DB) : Except String (DB × HeartPredictionResult) :=
  let features := normalizeHeartFeatures g
  let outcome := model features
  let riskLabel := outcome.1
  let probability := outcome.2
  let inputSummary := heartInputSummary features
  match userId with
  | none =>
      Except.ok (db,
        ⟨riskLabel, probability, features, inputSummary,
          generateHeartSuggestion riskLabel, none⟩)
  | some uid =>
      match insertPredictionLog db uid "heart_disease" inputSummary riskLabel
          probability now storageOk with
      | Except.error e => Except.error e
      | Except.ok (db1, logId) =>
          Except.ok (db1,
            ⟨riskLabel, probability, features, inputSummary,
              generateHeartSuggestion riskLabel, some logId⟩)

/-- The dict returned by `BrainTumorModel.predict`, with each key the
services read possibly absent (`dict.get` with a default). -/
structure BrainModelResult where
  predictedClassOpt : Option String
  probabilityOpt : Option ℚ
  probabilitiesOpt : Option (List (String × ℚ))
deriving DecidableEq

/-- The fixed tumor-class set of `predict_brain_tumor` (line 158). -/
def brainTumorClasses : List String :=
  ["glioma", "meningioma", "pituitary"]

/-- Embedding of `model_result.get(\x22predicted_class\x22, \x22unknown\x22)`. -/
def brainPredictedClass (mr : BrainModelResult) : String :=
  mr.predictedClassOpt.getD "unknown"

/-- Embedding of `float(model_result.get(\x22probability\x22, 0.0))`. -/
def brainProbability (mr : BrainModelResult) : ℚ :=
  mr.probabilityOpt.getD 0

/-- Embedding of `predicted_class in tumor_classes` (line 159). -/
def brainIsTumor (mr : BrainModelResult) : Bool :=
  brainTumorClasses.contains (brainPredictedClass mr)

/-- Result dict of `predict_brain_tumor` (lines 192-200). -/
structure BrainPredictionResult where
  predicted_class : String
  probability : ℚ
  probabilities : List (String × ℚ)
  is_tumor : Bool
  input_summary : String
  suggestion : String
  log_id : Option ℕ
deriving DecidableEq

/-- Embedding of `PredictionService.predict_brain_tumor`: read the model
result dict with defaults, classify, build the image-path summary, insert a
log row when a user id is present — a raised storage error propagates —
and return the result dict. -/
def predictBrainTumor (modelResult : BrainModelResult) (imagePath : String)
    (userId : Option ℕ) (storageOk : Bool) (now : String) (db : DB) :
    Except String (DB × BrainPredictionResult) :=
  let predictedClass := brainPredictedClass modelResult
  let probability := brainProbability modelResult
  let probabilities := modelResult.probabilitiesOpt.getD []
  let isTumor := brainIsTumor modelResult
  let inputSummary := "image_path=" ++ imagePath
  match userId with
  | none =>
      Except.ok (db,
        ⟨predictedClass, probability, probabilities, isTumor, inputSummary,
          generateBrainSuggestion predictedClass isTumor probability, none⟩)
  | some uid =>
      match insertPredictionLog db uid "brain_tumor_multiclass" inputSummary
          predictedClass probability now storageOk with
      | Except.error e => Except.error e
      | Except.ok (db1, logId) =>
          Except.ok (db1,
            ⟨predictedClass, probability, probabilities, isTumor, inputSummary,
              generateBrainSuggestion predictedClass isTumor probability, some logId⟩)

-- ## Auxiliary predicates and concrete witness inputs

/-- The input does not begin with a decimal digit (so a fixed-point parse
running just before it stops exactly there). -/
def headIsSafe (l : List Char) : Bool :=
  match l with
  | [] => true
  | c :: _ => !c.isDigit

/-- Every field of a heart feature vector is decimal-representable; true of
every vector the form normaliser produces. -/
def ReprableHeart (f : HeartFeatures) : Prop :=
  Reprable f.age ∧ Reprable f.sex ∧ Reprable f.cp ∧ Reprable f.trestbps ∧
    Reprable f.chol ∧ Reprable f.fbs ∧ Reprable f.restecg ∧ Reprable f.thalach ∧
    Reprable f.exang ∧ Reprable f.oldpeak ∧ Reprable f.slope ∧ Reprable f.ca ∧
    Reprable f.thal

/-- A constant heart model used to instantiate theorems at concrete inputs. -/
def wHeartModel : HeartFeatures → String × ℚ :=
  fun _ => ("High", 1)

/-- An empty form submission: every field absent. -/
def wHeartForm : String → Option String :=
  fun _ => none

/-- The feature vector the empty form normalises to. -/
def wFeatures0 : HeartFeatures :=
  ⟨0, 0, 0, 0, 0, 0, 0, 0, 0, 0, 0, 0, 0⟩

/-- The input summary of the all-zero feature vector. -/
def wSummary0 : String :=
  "age=0.0, sex=0.0, cp=0.0, trestbps=0.0, chol=0.0, fbs=0.0, restecg=0.0, thalach=0.0, exang=0.0, oldpeak=0.0, slope=0.0, ca=0.0, thal=0.0"

/-- The log row the empty-form prediction writes for user 7. -/
def wHeartRow : PredictionLogRow :=
  ⟨0, 7, "heart_disease", wSummary0, "High", 1, "t0"⟩

/-- An empty database. -/
def wDbEmpty : DB :=
  ⟨[], [], 0⟩

/-- The database after the single empty-form prediction of user 7. -/
def wDbOne : DB :=
  ⟨[], [wHeartRow], 1⟩

/-- The result dict of the empty-form prediction of user 7. -/
def wHeartRes : HeartPredictionResult :=
  ⟨"High", 1, wFeatures0, wSummary0, heartHighMsg, some 0⟩

-- ## Lemmas: decimal digits

theorem digVal_digitToChar {d : ℕ} (h : d < 10) : digVal (digitToChar d) = d := by
  interval_cases d <;> decide

theorem isDigit_digitToChar {d : ℕ} (h : d < 10) : (digitToChar d).isDigit = true := by
  interval_cases d <;> decide

theorem natOfChars_concat (l : List Char) (c : Char) :
    natOfChars (l ++ [c]) = 10 * natOfChars l + digVal c := by
  simp [natOfChars, List.foldl_append]

theorem natOfChars_replicate_zero (k : ℕ) (l : List Char) :
    natOfChars (List.replicate k '0' ++ l) = natOfChars l := by
  induction k with
  | zero => simp
  | succ n ih =>
      have h0 : digVal '0' = 0 := rfl
      simpa [List.replicate_succ, natOfChars, h0] using ih

theorem natCharsAux_sound : ∀ fuel n, n ≤ fuel → natOfChars (natCharsAux fuel n) = n := by
  intro fuel
  induction fuel with
  | zero =>
      intro n h
      have : n = 0 := Nat.le_zero.mp h
      simp [this, natCharsAux, natOfChars]
  | succ f ih =>
      intro n h
      by_cases hn : n = 0
      · simp [hn, natCharsAux, natOfChars]
      · have hlt : n / 10 < n := Nat.div_lt_self (Nat.pos_of_ne_zero hn) (by norm_num)
        have hle : n / 10 ≤ f := by omega
        have hmod : n % 10 < 10 := Nat.mod_lt _ (by norm_num)
        have hdm := Nat.div_add_mod n 10
        simp only [natCharsAux, if_neg hn]
        rw [natOfChars_concat, ih _ hle, digVal_digitToChar hmod]
        omega

theorem natOfChars_natChars (n : ℕ) : natOfChars (natChars n) = n := by
  unfold natChars
  by_cases hn : n = 0
  · simp [hn]; rfl
  · rw [if_neg hn]
    exact natCharsAux_sound n n le_rfl

theorem mem_natCharsAux_isDigit :
    ∀ fuel n c, c ∈ natCharsAux fuel n → c.isDigit = true := by
  intro fuel
  induction fuel with
  | zero => intro n c hc; simp [natCharsAux] at hc
  | succ f ih =>
      intro n c hc
      by_cases hn : n = 0
      · simp [natCharsAux, hn] at hc
      · simp only [natCharsAux, if_neg hn, List.mem_append, List.mem_singleton] at hc
        rcases hc with hc | hc
        · exact ih _ _ hc
        · rw [hc]
          exact isDigit_digitToChar (Nat.mod_lt _ (by norm_num))

theorem mem_natChars_isDigit (n : ℕ) (c : Char) (h : c ∈ natChars n) : c.isDigit = true := by
  unfold natChars at h
  by_cases hn : n = 0
  · simp [hn] at h
    rw [h]; decide
  · rw [if_neg hn] at h
    exact mem_natCharsAux_isDigit n n c h

theorem natChars_ne_nil (n : ℕ) : natChars n ≠ [] := by
  unfold natChars
  by_cases hn : n = 0
  · simp [hn]
  · rw [if_neg hn]
    cases n with
    | zero => exact absurd rfl hn
    | succ m =>
        simp only [natCharsAux, if_neg hn]
        simp

theorem natCharsAux_length :
    ∀ fuel n e, n ≤ fuel → n < 10 ^ e → (natCharsAux fuel n).length ≤ e := by
  intro fuel
  induction fuel with
  | zero =>
      intro n e h _
      have : n = 0 := Nat.le_zero.mp h
      simp [this, natCharsAux]
  | succ f ih =>
      intro n e h he
      by_cases hn : n = 0
      · simp [hn, natCharsAux]
      · cases e with
        | zero =>
            simp only [pow_zero, Nat.lt_one_iff] at he
            exact absurd he hn
        | succ e1 =>
            have hlt : n / 10 < n := Nat.div_lt_self (Nat.pos_of_ne_zero hn) (by norm_num)
            have hle : n / 10 ≤ f := by omega
            have hdiv : n / 10 < 10 ^ e1 := by
              rw [Nat.div_lt_iff_lt_mul (by norm_num : 0 < 10)]
              calc n < 10 ^ (e1 + 1) := he
              _ = 10 ^ e1 * 10 := by ring
            have := ih (n / 10) e1 hle hdiv
            simp only [natCharsAux, if_neg hn, List.length_append, List.length_singleton]
            omega

theorem natChars_length (n e : ℕ) (h1 : n < 10 ^ e) (h2 : 1 ≤ e) :
    (natChars n).length ≤ e := by
  unfold natChars
  by_cases hn : n = 0
  · simpa [hn] using h2
  · rw [if_neg hn]
    exact natCharsAux_length n n e le_rfl h1

-- ## Lemmas: takeWhile / dropWhile over a digit block

theorem headIsSafe_isDigit_false {c : Char} {r : List Char}
    (h : headIsSafe (c :: r) = true) : c.isDigit = false := by
  simpa [headIsSafe] using h

theorem spanAppendDigits :
    ∀ (A rest : List Char), (∀ a ∈ A, a.isDigit = true) → headIsSafe rest = true →
      (A ++ rest).takeWhile Char.isDigit = A ∧ (A ++ rest).dropWhile Char.isDigit = rest := by
  intro A
  induction A with
  | nil =>
      intro rest _ hr
      cases rest with
      | nil => simp
      | cons c r =>
          have hc := headIsSafe_isDigit_false hr
          simp [List.takeWhile_cons, List.dropWhile_cons, hc]
  | cons a A ih =>
      intro rest hA hr
      have ha : a.isDigit = true := hA a (by simp)
      obtain ⟨h1, h2⟩ := ih rest (fun x hx => hA x (by simp [hx])) hr
      simp [List.takeWhile_cons, List.dropWhile_cons, ha, h1, h2]

-- ## Lemmas: the padded fractional block

theorem natOfChars_padChars (e f : ℕ) : natOfChars (padChars e f) = f := by
  unfold padChars
  rw [natOfChars_replicate_zero, natOfChars_natChars]

theorem padChars_length (e f : ℕ) (h : f < 10 ^ e) (he : 1 ≤ e) :
    (padChars e f).length = e := by
  have := natChars_length f e h he
  simp only [padChars, List.length_append, List.length_replicate]
  omega

theorem mem_padChars_isDigit (e f : ℕ) (c : Char) (h : c ∈ padChars e f) :
    c.isDigit = true := by
  simp only [padChars, List.mem_append] at h
  rcases h with h | h
  · rw [List.eq_of_mem_replicate h]; decide
  · exact mem_natChars_isDigit f c h

theorem padChars_ne_nil (e f : ℕ) : padChars e f ≠ [] := by
  unfold padChars
  intro h
  exact natChars_ne_nil f (List.append_eq_nil.mp h).2

-- ## Lemmas: fixed-point parse inverts the rendering

theorem parseUnsigned_digits (ip fr e : ℕ) (he : 1 ≤ e) (hfr : fr < 10 ^ e)
    (rest : List Char) (hrest : headIsSafe rest = true) :
    parseUnsigned (natChars ip ++ '.' :: (padChars e fr ++ rest)) =
      some (((ip * 10 ^ e + fr : ℕ) : ℚ) / (10 : ℚ) ^ e, rest) := by
  obtain ⟨ht1, hd1⟩ := spanAppendDigits (natChars ip) ('.' :: (padChars e fr ++ rest))
    (mem_natChars_isDigit ip) (by rfl)
  obtain ⟨ht2, hd2⟩ := spanAppendDigits (padChars e fr) rest
    (mem_padChars_isDigit e fr) hrest
  have hne1 : (natChars ip).isEmpty = false := by
    cases h : natChars ip with
    | nil => exact absurd h (natChars_ne_nil ip)
    | cons c r => rfl
  have hne2 : (padChars e fr).isEmpty = false := by
    cases h : padChars e fr with
    | nil => exact absurd h (padChars_ne_nil e fr)
    | cons c r => rfl
  simp only [parseUnsigned, ht1, hd1, hne1, ht2, hd2, hne2, Bool.false_eq_true, if_false,
    natOfChars_natChars, natOfChars_padChars, padChars_length e fr hfr he]

theorem parseSigned_of_head_ne (l : List Char) (h : ∀ r, l ≠ '-' :: r) :
    parseSigned l = parseUnsigned l := by
  cases l with
  | nil => rfl
  | cons c r =>
      rw [parseSigned.eq_def]
      split
      · rename_i r1 heq
        exact absurd heq (h r1)
      · rfl

theorem fmtQ_shape (q : ℚ) :
    fmtQ q = (if q.num < 0 then ['-'] else []) ++
      (natChars (q.num.natAbs * (10 ^ q.den / q.den) / 10 ^ q.den) ++
        '.' :: padChars q.den (q.num.natAbs * (10 ^ q.den / q.den) % 10 ^ q.den)) := by
  simp [fmtQ]

theorem fmtQ_value (q : ℚ) (hq : Reprable q) :
    ((q.num.natAbs * (10 ^ q.den / q.den) / 10 ^ q.den * 10 ^ q.den +
        q.num.natAbs * (10 ^ q.den / q.den) % 10 ^ q.den : ℕ) : ℚ) / (10 : ℚ) ^ q.den =
      (q.num.natAbs : ℚ) / (q.den : ℚ) := by
  have hden0 : q.den ≠ 0 := q.den_nz
  have hscale : 10 ^ q.den / q.den * q.den = 10 ^ q.den := Nat.div_mul_cancel hq
  have hscale0 : (10 ^ q.den / q.den : ℕ) ≠ 0 := by
    intro h
    rw [h, zero_mul] at hscale
    exact pow_ne_zero q.den (by norm_num : (10 : ℕ) ≠ 0) hscale.symm
  have hm : q.num.natAbs * (10 ^ q.den / q.den) / 10 ^ q.den * 10 ^ q.den +
      q.num.natAbs * (10 ^ q.den / q.den) % 10 ^ q.den =
        q.num.natAbs * (10 ^ q.den / q.den) :=
    Nat.div_add_mod' _ _
  rw [hm]
  have hpow : ((10 : ℚ) ^ q.den) = ((10 ^ q.den / q.den : ℕ) : ℚ) * ((q.den : ℕ) : ℚ) := by
    rw [← Nat.cast_mul, hscale]
    push_cast
    ring
  rw [hpow]
  push_cast
  rw [mul_comm ((q.num.natAbs : ℚ)) (((10 ^ q.den / q.den : ℕ) : ℚ)), mul_div_mul_left]
  exact_mod_cast hscale0

theorem parseSigned_fmtQ (q : ℚ) (hq : Reprable q) (rest : List Char)
    (hrest : headIsSafe rest = true) :
    parseSigned (fmtQ q ++ rest) = some (q, rest) := by
  have hden0 : q.den ≠ 0 := q.den_nz
  have he : 1 ≤ q.den := Nat.one_le_iff_ne_zero.mpr hden0
  have hfr : q.num.natAbs * (10 ^ q.den / q.den) % 10 ^ q.den < 10 ^ q.den :=
    Nat.mod_lt _ (pow_pos (by norm_num) _)
  have hparse := parseUnsigned_digits
    (q.num.natAbs * (10 ^ q.den / q.den) / 10 ^ q.den) _ q.den he hfr rest hrest
  have hval := fmtQ_value q hq
  by_cases hneg : q.num < 0
  · have hass : fmtQ q ++ rest =
        '-' :: (natChars (q.num.natAbs * (10 ^ q.den / q.den) / 10 ^ q.den) ++
          '.' :: (padChars q.den (q.num.natAbs * (10 ^ q.den / q.den) % 10 ^ q.den) ++ rest)) := by
      rw [fmtQ_shape, if_pos hneg]
      simp
    rw [hass]
    show (parseUnsigned (natChars (q.num.natAbs * (10 ^ q.den / q.den) / 10 ^ q.den) ++
        '.' :: (padChars q.den (q.num.natAbs * (10 ^ q.den / q.den) % 10 ^ q.den) ++ rest))).map
          (fun p => (-p.1, p.2)) = some (q, rest)
    rw [hparse]
    simp only [Option.map_some']
    have hnat : (q.num.natAbs : ℚ) = -(q.num : ℚ) := by
      rw [Int.cast_natAbs]
      exact_mod_cast abs_of_neg hneg
    rw [hval, hnat]
    rw [neg_div, neg_neg, Rat.num_div_den]
  · have hass : fmtQ q ++ rest =
        natChars (q.num.natAbs * (10 ^ q.den / q.den) / 10 ^ q.den) ++
          '.' :: (padChars q.den (q.num.natAbs * (10 ^ q.den / q.den) % 10 ^ q.den) ++ rest) := by
      rw [fmtQ_shape, if_neg hneg]
      simp
    rw [hass]
    have hhead : ∀ r, (natChars (q.num.natAbs * (10 ^ q.den / q.den) / 10 ^ q.den) ++
        '.' :: (padChars q.den (q.num.natAbs * (10 ^ q.den / q.den) % 10 ^ q.den) ++ rest)) ≠
          '-' :: r := by
      intro r hcontra
      cases hA : natChars (q.num.natAbs * (10 ^ q.den / q.den) / 10 ^ q.den) with
      | nil => exact natChars_ne_nil _ hA
      | cons c t =>
          rw [hA, List.cons_append] at hcontra
          have hc : c = '-' := (List.cons.injEq _ _ _ _ ▸ hcontra).1
          have hdig := mem_natChars_isDigit _ c (hA ▸ List.mem_cons_self c t)
          rw [hc] at hdig
          exact absurd hdig (by decide)
    rw [parseSigned_of_head_ne _ hhead, hparse]
    have hnat : (q.num.natAbs : ℚ) = (q.num : ℚ) := by
      rw [Int.cast_natAbs]
      exact_mod_cast abs_of_nonneg (not_lt.mp hneg)
    rw [hval, hnat, Rat.num_div_den]

-- ## Lemmas: every normalised value is decimal-representable

theorem dvd_ten_pow_self {d k : ℕ} (hd : d ≠ 0) (h : d ∣ 10 ^ k) : d ∣ 10 ^ d := by
  have h10 : (10 : ℕ) ^ k ≠ 0 := pow_ne_zero _ (by norm_num)
  have h10d : (10 : ℕ) ^ d ≠ 0 := pow_ne_zero _ (by norm_num)
  rw [← Nat.factorization_le_iff_dvd hd h10] at h
  rw [← Nat.factorization_le_iff_dvd hd h10d]
  rw [Nat.factorization_pow] at h ⊢
  rw [Finsupp.le_def] at h ⊢
  intro p
  have hp := h p
  simp only [Finsupp.smul_apply, smul_eq_mul] at hp ⊢
  by_cases h0 : (Nat.factorization 10) p = 0
  · rw [h0] at hp ⊢
    simpa using hp
  · have h1 : 1 ≤ (Nat.factorization 10) p := Nat.one_le_iff_ne_zero.mpr h0
    have h2 : d.factorization p < d := Nat.factorization_lt p hd
    calc d.factorization p ≤ d * 1 := by omega
    _ ≤ d * (Nat.factorization 10) p := Nat.mul_le_mul_left d h1

theorem reprable_of_dvd_pow {q : ℚ} {k : ℕ} (h : q.den ∣ 10 ^ k) : Reprable q :=
  dvd_ten_pow_self q.den_nz h

theorem reprable_pyFloatValue {s : String} {q : ℚ} (h : pyFloatValue s = some q) :
    Reprable q := by
  unfold pyFloatValue at h
  rcases Option.map_eq_some'.mp h with ⟨p, _, hpq⟩
  have hden : q.den ∣ 10 ^ p.2 := by
    rw [← hpq]
    have hdvd := Rat.den_dvd p.1 ((10 : ℤ) ^ p.2)
    rw [Rat.divInt_eq_div] at hdvd
    push_cast at hdvd
    exact_mod_cast hdvd
  exact reprable_of_dvd_pow hden

theorem reprable_zero : Reprable 0 := by
  unfold Reprable
  decide

theorem reprable_one : Reprable 1 := by
  unfold Reprable
  decide

theorem reprable_parseFloat (v : Option String) : Reprable (parseFloat v 0) := by
  cases v with
  | none => exact reprable_zero
  | some s =>
      cases h : pyFloatValue s with
      | none =>
          simp only [parseFloat, h]
          exact reprable_zero
      | some q =>
          simp only [parseFloat, h]
          exact reprable_pyFloatValue h

theorem reprable_parseBinary (v : Option String) : Reprable (parseBinary v) := by
  cases v with
  | none => exact reprable_zero
  | some s =>
      simp only [parseBinary]
      split
      · exact reprable_one
      · split
        · exact reprable_zero
        · exact reprable_zero

theorem reprableHeart_normalize (g : String → Option String) :
    ReprableHeart (normalizeHeartFeatures g) := by
  refine ⟨?_, ?_, ?_, ?_, ?_, ?_, ?_, ?_, ?_, ?_, ?_, ?_, ?_⟩ <;>
    first
      | exact reprable_parseFloat _
      | exact reprable_parseBinary _

-- ## Lemmas: field-level roundtrip

theorem expectLit_append (p r : List Char) : expectLit p (p ++ r) = some r := by
  induction p with
  | nil => rfl
  | cons c t ih => simp [expectLit, ih]

theorem parseField_round (pre : List Char) (q : ℚ) (hq : Reprable q)
    (rest : List Char) (hrest : headIsSafe rest = true) :
    parseField pre (pre ++ (fmtQ q ++ rest)) = some (q, rest) := by
  unfold parseField
  rw [expectLit_append]
  exact parseSigned_fmtQ q hq rest hrest

theorem headIsSafe_label {c : Char} (t x : List Char) (hc : c.isDigit = false) :
    headIsSafe ((c :: t) ++ x) = true := by
  simp [headIsSafe, List.cons_append, hc]

theorem parseFields_pairs :
    ∀ pairs : List (List Char × ℚ),
      (∀ pr ∈ pairs, Reprable pr.2) →
      (∀ pr ∈ pairs, ∃ c t, pr.1 = c :: t ∧ c.isDigit = false) →
      parseFields (pairs.map Prod.fst) (summaryOfPairs pairs) = some (pairs.map Prod.snd) := by
  intro pairs
  induction pairs with
  | nil => intro _ _; rfl
  | cons pr rest ih =>
      intro hrep hlab
      have hsafe : headIsSafe (summaryOfPairs rest) = true := by
        cases rest with
        | nil => rfl
        | cons pr2 rest2 =>
            obtain ⟨c, t, hpr, hc⟩ := hlab pr2 (by simp)
            show headIsSafe (pr2.1 ++ fmtQ pr2.2 ++ summaryOfPairs rest2) = true
            rw [hpr, List.append_assoc]
            exact headIsSafe_label t _ hc
      have hfield := parseField_round pr.1 pr.2 (hrep pr (by simp))
        (summaryOfPairs rest) hsafe
      show parseFields (pr.1 :: rest.map Prod.fst)
          (pr.1 ++ fmtQ pr.2 ++ summaryOfPairs rest) = _
      rw [List.append_assoc]
      simp only [parseFields, hfield]
      rw [ih (fun x hx => hrep x (by simp [hx])) (fun x hx => hlab x (by simp [hx]))]
      rfl

theorem heartInputSummaryChars_eq_pairs (f : HeartFeatures) :
    heartInputSummaryChars f = summaryOfPairs (heartFieldPairs f) := by
  simp [heartInputSummaryChars, heartFieldPairs, summaryOfPairs, List.append_assoc]

theorem recoverHeartFeatures_summary (f : HeartFeatures) (h : ReprableHeart f) :
    recoverHeartFeatures (heartInputSummaryChars f) = some f := by
  obtain ⟨h1, h2, h3, h4, h5, h6, h7, h8, h9, h10, h11, h12, h13⟩ := h
  have hrep : ∀ pr ∈ heartFieldPairs f, Reprable pr.2 := by
    intro pr hpr
    simp only [heartFieldPairs, List.mem_cons, List.not_mem_nil, or_false] at hpr
    rcases hpr with h | h | h | h | h | h | h | h | h | h | h | h | h <;>
      (subst h; assumption)
  have hlab : ∀ pr ∈ heartFieldPairs f, ∃ c t, pr.1 = c :: t ∧ c.isDigit = false := by
    intro pr hpr
    simp only [heartFieldPairs, List.mem_cons, List.not_mem_nil, or_false] at hpr
    rcases hpr with h | h | h | h | h | h | h | h | h | h | h | h | h <;>
      (subst h; exact ⟨_, _, rfl, by decide⟩)
  have hmain := parseFields_pairs (heartFieldPairs f) hrep hlab
  have hfst : (heartFieldPairs f).map Prod.fst = heartFieldLabels := rfl
  have hsnd : (heartFieldPairs f).map Prod.snd =
      [f.age, f.sex, f.cp, f.trestbps, f.chol, f.fbs, f.restecg, f.thalach,
        f.exang, f.oldpeak, f.slope, f.ca, f.thal] := rfl
  rw [hfst, hsnd] at hmain
  unfold recoverHeartFeatures
  rw [heartInputSummaryChars_eq_pairs, hmain]

-- ## Claim theorems

/-- C3: the binary-field parser maps (after stripping and lowercasing) the
spellings 1/yes/y/true to exactly 1.0, the spellings 0/no/n/false to exactly
0.0, and every other value — including the absent/None case — to exactly
0.0; its result is always exactly 0.0 or 1.0. -/
theorem parse_binary_table (v : Option String) (s : String) :
    (parseBinary v = 0 ∨ parseBinary v = 1) ∧
    parseBinary none = 0 ∧
    ((pyLower (pyStrip s) = "1" ∨ pyLower (pyStrip s) = "yes" ∨
        pyLower (pyStrip s) = "y" ∨ pyLower (pyStrip s) = "true") →
      parseBinary (some s) = 1) ∧
    ((pyLower (pyStrip s) = "0" ∨ pyLower (pyStrip s) = "no" ∨
        pyLower (pyStrip s) = "n" ∨ pyLower (pyStrip s) = "false") →
      parseBinary (some s) = 0) ∧
    (¬(pyLower (pyStrip s) = "1" ∨ pyLower (pyStrip s) = "yes" ∨
        pyLower (pyStrip s) = "y" ∨ pyLower (pyStrip s) = "true") →
      parseBinary (some s) = 0) := by
  refine ⟨?_, rfl, ?_, ?_, ?_⟩
  · cases v with
    | none => exact Or.inl rfl
    | some t =>
        simp only [parseBinary]
        split
        · exact Or.inr rfl
        · split
          · exact Or.inl rfl
          · exact Or.inl rfl
  · intro h
    simp only [parseBinary]
    rw [if_pos h]
  · intro h
    have hne : ¬(pyLower (pyStrip s) = "1" ∨ pyLower (pyStrip s) = "yes" ∨
        pyLower (pyStrip s) = "y" ∨ pyLower (pyStrip s) = "true") := by
      rcases h with h | h | h | h <;> rw [h] <;> decide
    simp only [parseBinary]
    rw [if_neg hne, if_pos h]
  · intro h
    simp only [parseBinary]
    rw [if_neg h]
    split
    · rfl
    · rfl

/-- C4: the numeric-field parser is total — every input, including the
absent/None case, yields a value — and whenever the float parse fails or
the field is absent the result is exactly 0.0; when the parse succeeds the
parsed value is returned unchanged. -/
theorem parse_float_total_default (v : Option String) :
    (v = none → parseFloat v 0 = 0) ∧
    (∀ s, v = some s → pyFloatValue s = none → parseFloat v 0 = 0) ∧
    (∀ s q, v = some s → pyFloatValue s = some q → parseFloat v 0 = q) := by
  refine ⟨?_, ?_, ?_⟩
  · intro h
    rw [h]
    rfl
  · intro s hs h
    rw [hs]
    simp [parseFloat, h]
  · intro s q hs h
    rw [hs]
    simp [parseFloat, h]

/-- C8 (amended): the stored tabular input summary is a full, reversible
rendering of the normalised feature vector — the recovery function parses
every normalised value back out of the stored digest. -/
theorem heart_input_summary_reversible (g : String → Option String) :
    recoverHeartFeatures (heartInputSummaryChars (normalizeHeartFeatures g)) =
      some (normalizeHeartFeatures g) :=
  recoverHeartFeatures_summary _ (reprableHeart_normalize g)

/-- C8 counterexample: the claim that two distinct normalised feature
vectors can share a stored summary is false — the summary determines the
normalised vector. -/
theorem heart_summary_collision_impossible :
    ¬ ∃ g g' : String → Option String,
        normalizeHeartFeatures g ≠ normalizeHeartFeatures g' ∧
        heartInputSummary (normalizeHeartFeatures g) =
          heartInputSummary (normalizeHeartFeatures g') := by
  rintro ⟨g, g', hne, heq⟩
  apply hne
  have hdata : heartInputSummaryChars (normalizeHeartFeatures g) =
      heartInputSummaryChars (normalizeHeartFeatures g') :=
    congrArg String.data heq
  have h1 := recoverHeartFeatures_summary _ (reprableHeart_normalize g)
  have h2 := recoverHeartFeatures_summary _ (reprableHeart_normalize g')
  rw [hdata] at h1
  exact Option.some.inj (h1.symm.trans h2)

/-- C9: delete_account removes the user's row from the users table only; it
does not cascade into prediction_logs — every log row that existed before
the call, including the deleted user's, still exists unchanged after it. -/
theorem delete_account_preserves_prediction_logs (db : DB) (userId : ℕ) :
    (deleteAccount db userId).prediction_logs = db.prediction_logs ∧
    (∀ r ∈ db.prediction_logs, r ∈ (deleteAccount db userId).prediction_logs) ∧
    (deleteAccount db userId).next_log_id = db.next_log_id ∧
    (deleteAccount db userId).users = db.users.filter (fun u => u.id != userId) := by
  refine ⟨rfl, ?_, rfl, rfl⟩
  intro r hr
  exact hr

/-- C10: is_tumor holds exactly when the predicted class is one of glioma,
meningioma, pituitary; a model result without the expected keys defaults to
class "unknown" with probability 0.0 and is reported as non-tumor,
indistinguishable in the is_tumor flag from a negative (no_tumor) finding. -/
theorem brain_is_tumor_classification (mr : BrainModelResult) :
    (brainIsTumor mr = true ↔ brainPredictedClass mr ∈ brainTumorClasses) ∧
    (mr.predictedClassOpt = none → brainPredictedClass mr = "unknown") ∧
    (mr.predictedClassOpt = none → brainIsTumor mr = false) ∧
    (mr.probabilityOpt = none → brainProbability mr = 0) ∧
    (mr.predictedClassOpt = none →
      brainIsTumor mr = brainIsTumor ⟨some "no_tumor", mr.probabilityOpt, mr.probabilitiesOpt⟩) := by
  refine ⟨?_, ?_, ?_, ?_, ?_⟩
  · simp [brainIsTumor]
  · intro h
    simp [brainPredictedClass, h]
  · intro h
    simp [brainIsTumor, brainPredictedClass, h, brainTumorClasses]
  · intro h
    simp [brainProbability, h]
  · intro h
    simp [brainIsTumor, brainPredictedClass, h, brainTumorClasses]

/-- C7: the result interpreter is a pure function of (model type, label,
probability): the heart suggestion is drawn from a fixed three-branch table
keyed on the risk tier, the brain explanation from a fixed five-branch
table over the image classes including the no-finding branch, each branch
selected exactly by its label; equal arguments yield the identical string. -/
theorem result_interpreter_fixed_tables (riskLabel predictedClass : String)
    (isTumor : Bool) (probability : ℚ) :
    (generateHeartSuggestion riskLabel ∈ [heartHighMsg, heartMediumMsg, heartLowMsg]) ∧
    (riskLabel = "High" → generateHeartSuggestion riskLabel = heartHighMsg) ∧
    (riskLabel = "Medium" → generateHeartSuggestion riskLabel = heartMediumMsg) ∧
    (riskLabel ≠ "High" → riskLabel ≠ "Medium" →
      generateHeartSuggestion riskLabel = heartLowMsg) ∧
    (brainClassExplanation predictedClass ∈
      [brainNoTumorMsg, brainGliomaMsg, brainMeningiomaMsg, brainPituitaryMsg,
        brainUnknownMsg]) ∧
    (pyStrip (pyLower predictedClass) = "no_tumor" →
      brainClassExplanation predictedClass = brainNoTumorMsg) ∧
    (pyStrip (pyLower predictedClass) = "glioma" →
      brainClassExplanation predictedClass = brainGliomaMsg) ∧
    (pyStrip (pyLower predictedClass) = "meningioma" →
      brainClassExplanation predictedClass = brainMeningiomaMsg) ∧
    (pyStrip (pyLower predictedClass) = "pituitary" →
      brainClassExplanation predictedClass = brainPituitaryMsg) ∧
    (pyStrip (pyLower predictedClass) ∉
        (["no_tumor", "glioma", "meningioma", "pituitary"] : List String) →
      brainClassExplanation predictedClass = brainUnknownMsg) ∧
    (∀ r2 c2 b2 p2, riskLabel = r2 → predictedClass = c2 → isTumor = b2 →
      probability = p2 →
      generateHeartSuggestion riskLabel = generateHeartSuggestion r2 ∧
      generateBrainSuggestion predictedClass isTumor probability =
        generateBrainSuggestion c2 b2 p2 ∧
      brainClassExplanation predictedClass = brainClassExplanation c2) := by
  refine ⟨?_, ?_, ?_, ?_, ?_, ?_, ?_, ?_, ?_, ?_, ?_⟩
  · by_cases h1 : riskLabel = "High"
    · simp [generateHeartSuggestion, h1]
    · by_cases h2 : riskLabel = "Medium"
      · simp [generateHeartSuggestion, h1, h2]
      · simp [generateHeartSuggestion, h1, h2]
  · intro h
    simp [generateHeartSuggestion, h]
  · intro h
    subst h
    rfl
  · intro h1 h2
    unfold generateHeartSuggestion
    rw [if_neg h1, if_neg h2]
  · by_cases h1 : pyStrip (pyLower predictedClass) = "no_tumor"
    · unfold brainClassExplanation
      rw [h1]
      simp
    · by_cases h2 : pyStrip (pyLower predictedClass) = "glioma"
      · unfold brainClassExplanation
        rw [h2]
        simp
      · by_cases h3 : pyStrip (pyLower predictedClass) = "meningioma"
        · unfold brainClassExplanation
          rw [h3]
          simp
        · by_cases h4 : pyStrip (pyLower predictedClass) = "pituitary"
          · unfold brainClassExplanation
            rw [h4]
            simp
          · unfold brainClassExplanation
            rw [if_neg h1, if_neg h2, if_neg h3, if_neg h4]
            simp
  · intro h
    unfold brainClassExplanation
    rw [h]
    rfl
  · intro h
    unfold brainClassExplanation
    rw [h]
    rfl
  · intro h
    unfold brainClassExplanation
    rw [h]
    rfl
  · intro h
    unfold brainClassExplanation
    rw [h]
    rfl
  · intro h
    simp only [List.mem_cons, List.not_mem_nil, or_false, not_or] at h
    obtain ⟨h1, h2, h3, h4⟩ := h
    unfold brainClassExplanation
    rw [if_neg h1, if_neg h2, if_neg h3, if_neg h4]
  · intro r2 c2 b2 p2 hr hc hb hp
    subst hr
    subst hc
    subst hb
    subst hp
    exact ⟨rfl, rfl, rfl⟩

-- ## Lemmas: the latest-row fold

theorem latestStep_some :
    ∀ (acc : Option PredictionLogRow) (x r : PredictionLogRow),
      latestStep acc x = some r →
        (r = x ∨ acc = some r) ∧
          (∀ b, acc = some b → b.created_at ≤ r.created_at) ∧
          x.created_at ≤ r.created_at := by
  intro acc x r h
  cases acc with
  | none =>
      have hx : x = r := Option.some.inj h
      subst hx
      refine ⟨Or.inl rfl, ?_, le_rfl⟩
      intro b hb
      cases hb
  | some b0 =>
      by_cases hlt : b0.created_at < x.created_at
      · have hx : x = r := Option.some.inj (by simpa [latestStep, hlt] using h)
        subst hx
        refine ⟨Or.inl rfl, ?_, le_rfl⟩
        intro b hb
        rw [show b = b0 from (Option.some.inj hb).symm]
        exact le_of_lt hlt
      · have hb0 : b0 = r := Option.some.inj (by simpa [latestStep, hlt] using h)
        subst hb0
        refine ⟨Or.inr rfl, ?_, not_lt.mp hlt⟩
        intro b hb
        rw [show b = b0 from (Option.some.inj hb).symm]

theorem latestStep_ne_none :
    ∀ (b : PredictionLogRow) (x : PredictionLogRow), latestStep (some b) x ≠ none := by
  intro b x h
  simp only [latestStep] at h
  split at h <;> cases h

theorem latestFold_spec :
    ∀ (l : List PredictionLogRow) (acc : Option PredictionLogRow),
      (List.foldl latestStep acc l = none → l = [] ∧ acc = none) ∧
      (∀ r, List.foldl latestStep acc l = some r →
        (acc = some r ∨ r ∈ l) ∧
        (∀ b, acc = some b → b.created_at ≤ r.created_at) ∧
        (∀ s ∈ l, s.created_at ≤ r.created_at)) := by
  intro l
  induction l with
  | nil =>
      intro acc
      constructor
      · intro h
        exact ⟨rfl, h⟩
      · intro r h
        have hacc : acc = some r := h
        refine ⟨Or.inl hacc, ?_, ?_⟩
        · intro b hb
          rw [hacc] at hb
          exact le_of_eq (congrArg PredictionLogRow.created_at (Option.some.inj hb).symm)
        · intro s hs
          exact absurd hs (List.not_mem_nil s)
  | cons x xs ih =>
      intro acc
      constructor
      · intro h
        rw [List.foldl_cons] at h
        obtain ⟨_, h2⟩ := (ih (latestStep acc x)).1 h
        cases hacc : acc with
        | none =>
            rw [hacc] at h2
            cases h2
        | some b0 =>
            rw [hacc] at h2
            exact absurd h2 (latestStep_ne_none b0 x)
      · intro r h
        rw [List.foldl_cons] at h
        obtain ⟨hmem, hacc, hall⟩ := (ih (latestStep acc x)).2 r h
        have hy : ∃ y, latestStep acc x = some y := by
          cases hs : latestStep acc x with
          | none =>
              cases hacc2 : acc with
              | none => rw [hacc2] at hs; cases hs
              | some b0 => rw [hacc2] at hs; exact absurd hs (latestStep_ne_none b0 x)
          | some y => exact ⟨y, rfl⟩
        obtain ⟨y, hy⟩ := hy
        obtain ⟨hy1, hy2, hy3⟩ := latestStep_some acc x y hy
        have hyr : y.created_at ≤ r.created_at := hacc y hy
        refine ⟨?_, ?_, ?_⟩
        · rcases hmem with hm | hm
          · rw [hy] at hm
            have heq : y = r := Option.some.inj hm
            subst heq
            rcases hy1 with h' | h'
            · exact Or.inr (h' ▸ List.mem_cons_self x xs)
            · exact Or.inl h'
          · exact Or.inr (List.mem_cons_of_mem x hm)
        · intro b hb
          exact le_trans (hy2 b hb) hyr
        · intro s hs
          rcases List.mem_cons.mp hs with hs' | hs'
          · rw [hs']
            exact le_trans hy3 hyr
          · exact hall s hs'

/-- C5: the latest-prediction lookup returns absence when the user has no
rows of that model type; with at least one such row it returns a row of
that user and model type whose created_at timestamp is maximal among them. -/
theorem latest_prediction_spec (db : DB) (userId : ℕ) (modelType : String) :
    (latestCandidates db userId modelType = [] →
      fetchLatestPrediction db userId modelType = none) ∧
    (latestCandidates db userId modelType ≠ [] →
      ∃ r, fetchLatestPrediction db userId modelType = some r) ∧
    (∀ r, fetchLatestPrediction db userId modelType = some r →
      r ∈ latestCandidates db userId modelType ∧
      (∀ s ∈ latestCandidates db userId modelType,
        s.created_at ≤ r.created_at)) := by
  refine ⟨?_, ?_, ?_⟩
  · intro h
    unfold fetchLatestPrediction
    rw [h]
    rfl
  · intro h
    cases hres : fetchLatestPrediction db userId modelType with
    | none =>
        obtain ⟨h1, _⟩ := (latestFold_spec (latestCandidates db userId modelType) none).1 hres
        exact absurd h1 h
    | some r => exact ⟨r, rfl⟩
  · intro r h
    obtain ⟨hmem, _, hall⟩ :=
      (latestFold_spec (latestCandidates db userId modelType) none).2 r h
    refine ⟨?_, hall⟩
    rcases hmem with hm | hm
    · cases hm
    · exact hm

/-- C1: with a user id present and storage healthy, the heart prediction
appends one log row and the returned log id immediately fetches, for the
same user, a record whose user_id, model_type, input_summary,
prediction_result, probability and created_at equal exactly the appended
values; insert and id retrieval are one call of the modelled
execute_and_get_id. -/
theorem append_then_get_roundtrip (model : HeartFeatures → String × ℚ)
    (g : String → Option String) (u : ℕ) (now : String) (db db1 : DB)
    (res : HeartPredictionResult)
    (hwf : ∀ r ∈ db.prediction_logs, r.id < db.next_log_id)
    (h : predictHeartDisease model g (some u) true now db = Except.ok (db1, res)) :
    ∃ logId, res.log_id = some logId ∧
      fetchPredictionForUser db1 logId u none =
        some ⟨logId, u, "heart_disease", res.input_summary, res.risk_label,
          res.probability, now⟩ := by
  simp only [predictHeartDisease, insertPredictionLog, if_true] at h
  rw [Except.ok.injEq, Prod.mk.injEq] at h
  obtain ⟨hdb, hres⟩ := h
  subst hdb
  subst hres
  refine ⟨db.next_log_id, rfl, ?_⟩
  unfold fetchPredictionForUser
  rw [List.find?_append]
  have hnone : db.prediction_logs.find? (fun r =>
      r.id == db.next_log_id && r.user_id == u &&
        (match (none : Option String) with
         | none => true
         | some mt => if mt = "" then true else r.model_type == mt)) = none := by
    apply List.find?_eq_none.mpr
    intro r hr hp
    simp only [Bool.and_eq_true, beq_iff_eq] at hp
    have := hwf r hr
    omega
  rw [hnone]
  simp

/-- C2: an ownership-scoped lookup of a log row that belongs to a different
user returns the explicit absence value, and so does the lookup of an id
that belongs to no row at all — the two cases are indistinguishable. -/
theorem get_other_users_log_absent (db : DB) (hwf : dbWellFormed db)
    (r : PredictionLogRow) (hr : r ∈ db.prediction_logs) (a : ℕ)
    (ha : a ≠ r.user_id) :
    fetchPredictionForUser db r.id a none = none ∧
    (∀ j, (∀ s ∈ db.prediction_logs, s.id ≠ j) →
      fetchPredictionForUser db j a none = none) := by
  obtain ⟨_, hdist⟩ := hwf
  constructor
  · apply List.find?_eq_none.mpr
    intro s hs hp
    simp only [Bool.and_eq_true, beq_iff_eq] at hp
    obtain ⟨⟨hid, huser⟩, _⟩ := hp
    by_cases hsr : s = r
    · subst hsr
      exact ha huser.symm
    · have hsym : Symmetric (fun x y : PredictionLogRow => x.id ≠ y.id) :=
        fun x y hxy he => hxy he.symm
      exact hdist.forall hsym hs hr hsr hid
  · intro j hj
    apply List.find?_eq_none.mpr
    intro s hs hp
    simp only [Bool.and_eq_true, beq_iff_eq] at hp
    exact hj s hs hp.1.1

/-- C6: with no user id, both prediction pipelines succeed without touching
storage and return a null log id; with a user id, a storage write failure
is surfaced as a raised error — never as a successful result — and every
successful logged result carries a non-null (the generated) log id. -/
theorem logging_skip_vs_storage_failure (model : HeartFeatures → String × ℚ)
    (g : String → Option String) (mr : BrainModelResult) (imagePath : String)
    (now : String) (db : DB) :
    (∀ ok, ∃ res, predictHeartDisease model g none ok now db =
        Except.ok (db, res) ∧ res.log_id = none) ∧
    (∀ u : ℕ, predictHeartDisease model g (some u) false now db =
      Except.error "storage write failure") ∧
    (∀ u : ℕ, ∃ db1 res, predictHeartDisease model g (some u) true now db =
        Except.ok (db1, res) ∧ res.log_id = some db.next_log_id) ∧
    (∀ (u : ℕ) ok db1 res, predictHeartDisease model g (some u) ok now db =
        Except.ok (db1, res) → res.log_id = some db.next_log_id) ∧
    (∀ ok, ∃ res, predictBrainTumor mr imagePath none ok now db =
        Except.ok (db, res) ∧ res.log_id = none) ∧
    (∀ u : ℕ, predictBrainTumor mr imagePath (some u) false now db =
      Except.error "storage write failure") ∧
    (∀ u : ℕ, ∃ db1 res, predictBrainTumor mr imagePath (some u) true now db =
        Except.ok (db1, res) ∧ res.log_id = some db.next_log_id) ∧
    (∀ (u : ℕ) ok db1 res, predictBrainTumor mr imagePath (some u) ok now db =
        Except.ok (db1, res) → res.log_id = some db.next_log_id) := by
  refine ⟨?_, ?_, ?_, ?_, ?_, ?_, ?_, ?_⟩
  · intro ok
    exact ⟨_, rfl, rfl⟩
  · intro u
    rfl
  · intro u
    exact ⟨_, _, rfl, rfl⟩
  · intro u ok db1 res h
    cases ok with
    | false => cases h
    | true =>
        simp only [predictHeartDisease, insertPredictionLog, if_true] at h
        rw [Except.ok.injEq, Prod.mk.injEq] at h
        rw [← h.2]
  · intro ok
    exact ⟨_, rfl, rfl⟩
  · intro u
    rfl
  · intro u
    exact ⟨_, _, rfl, rfl⟩
  · intro u ok db1 res h
    cases ok with
    | false => cases h
    | true =>
        simp only [predictBrainTumor, insertPredictionLog, if_true] at h
        rw [Except.ok.injEq, Prod.mk.injEq] at h
        rw [← h.2]

/-- C1 witness: the roundtrip instantiated at user 7 with an empty form and
the constant High/1 model over the empty database. -/
theorem append_then_get_roundtrip_witness :
    ∃ logId, wHeartRes.log_id = some logId ∧
      fetchPredictionForUser wDbOne logId 7 none =
        some ⟨logId, 7, "heart_disease", wHeartRes.input_summary,
          wHeartRes.risk_label, wHeartRes.probability, "t0"⟩ :=
  append_then_get_roundtrip wHeartModel wHeartForm 7 "t0" wDbEmpty wDbOne
    wHeartRes (by simp [wDbEmpty]) (by rfl)

/-- C2 witness: user 8 looking up user 7's row (id 0) in the one-row
database gets none, as for any unused id. -/
theorem get_other_users_log_absent_witness :
    fetchPredictionForUser wDbOne wHeartRow.id 8 none = none ∧
    (∀ j, (∀ s ∈ wDbOne.prediction_logs, s.id ≠ j) →
      fetchPredictionForUser wDbOne j 8 none = none) :=
  get_other_users_log_absent wDbOne
    ⟨by simp [wDbOne, wHeartRow], by simp [wDbOne]⟩
    wHeartRow (by simp [wDbOne]) 8 (by decide)
